import Mathlib

/-!
Verification development for the unattended internet-radio orchestration
engine: a shallow embedding of its acquisition chain, request queue,
playback-state store, stream loop, skip handling and named-task supervisor,
with theorems settling the specification's claims.
-/

namespace Radio

/- ## Unified Downloader (src/config/downloaders/unified_downloader.py)

`UnifiedDownloader.download_song` runs the fallback chain
cache → JioSaavn → SoundCloud → YouTube → random cached file.
Each network/step outcome is abstracted as an oracle in `DlEnv`
(`none` models both "no result" and "an exception was raised and caught");
the chain logic itself is translated literally. -/

/-- Outcome oracles for one call to `download_song`.  Each field is the
result of the corresponding side-effecting step in the source, with `none`
covering both a missing result and a caught exception. -/
structure DlEnv where
  /-- `cache_manager.get_from_cache(title)` -/
  cacheHit : Option String
  /-- `MP3(cached_path).info.length` for a cache hit -/
  cacheDuration : Nat
  /-- `jiosaavn.get_song_by_name(search_query)`: url and duration, if a
  result with a url came back -/
  jsSearch : Option (String × Nat)
  /-- `download_from_url(js_result.url, title)` -/
  jsDownload : Option String
  /-- `soundcloud.get_song_by_name(search_query)`: url and duration -/
  scSearch : Option (String × Nat)
  /-- `soundcloud.download_from_url(sc_result.url, output_path)` -/
  scDownload : Option String
  /-- `cache_manager.get_cached_path(title)` (always a path string) -/
  scCachedPath : String
  /-- `download_from_youtube(search_query, title, ...)` -/
  ytDownload : Option String
  /-- `cache_manager.get_random_from_cache()` -/
  randomCached : Option String

/-- The acquisition result dict: `path`, `source`, `title` and (for the
steps that report it) `duration`. -/
structure DlResult where
  path : String
  source : String
  title : String
  duration : Option Nat
deriving DecidableEq, Repr

/-- Step 1 of `download_song`: cache lookup. -/
def tryCache (env : DlEnv) (title : String) : Option DlResult :=
  match env.cacheHit with
  | some p => some ⟨p, "cache", title, some env.cacheDuration⟩
  | none => none

/-- Step 2 of `download_song`: JioSaavn search then URL download; the step
yields a result only when both the search and the download succeed. -/
def tryJioSaavn (env : DlEnv) (title : String) : Option DlResult :=
  match env.jsSearch with
  | some sd =>
      match env.jsDownload with
      | some p => some ⟨p, "jiosaavn", title, some sd.2⟩
      | none => none
  | none => none

/-- Step 3 of `download_song`: SoundCloud search then download.  On a
successful download the source returns the *cached* path
(`cache_manager.get_cached_path(title)`), whether or not caching succeeded. -/
def trySoundCloud (env : DlEnv) (title : String) : Option DlResult :=
  match env.scSearch with
  | some sd =>
      match env.scDownload with
      | some _ => some ⟨env.scCachedPath, "soundcloud", title, some sd.2⟩
      | none => none
  | none => none

/-- Step 4 of `download_song`: YouTube download (search or direct URL).
The source's result dict for this step carries no duration key. -/
def tryYoutube (env : DlEnv) (title : String) : Option DlResult :=
  match env.ytDownload with
  | some p => some ⟨p, "youtube", title, none⟩
  | none => none

/-- Step 5 of `download_song`: uniformly random cached file as emergency
substitute; its title is derived from the file name. -/
def tryCacheFallback (env : DlEnv) : Option DlResult :=
  match env.randomCached with
  | some p => some ⟨p, "cache_fallback", p, none⟩
  | none => none

/-- `UnifiedDownloader.download_song`, translated step by step: each step's
failure (including a caught exception) falls through to the next step, and
the first step that produces a result returns immediately. -/
def downloadSong (env : DlEnv) (title : String) : Option DlResult :=
  match tryCache env title with
  | some r => some r
  | none =>
    match tryJioSaavn env title with
    | some r => some r
    | none =>
      match trySoundCloud env title with
      | some r => some r
      | none =>
        match tryYoutube env title with
        | some r => some r
        | none => tryCacheFallback env

/-- The five chain steps in their fixed order, as the source runs them. -/
def chainSteps (env : DlEnv) (title : String) : List (Option DlResult) :=
  [tryCache env title, tryJioSaavn env title, trySoundCloud env title,
   tryYoutube env title, tryCacheFallback env]

/-- Source tags, in chain order. -/
def chainSources : List String :=
  ["cache", "jiosaavn", "soundcloud", "youtube", "cache_fallback"]

/-- First defined element of a list of options. -/
def firstSome : List (Option α) → Option α
  | [] => none
  | some a :: _ => some a
  | none :: rest => firstSome rest

/-- Step `i` of the chain (`none` past the end). -/
def stepAt (env : DlEnv) (title : String) (i : Nat) : Option DlResult :=
  (chainSteps env title).getD i none

theorem firstSome_eq_some {α : Type} (l : List (Option α)) (a : α)
    (h : firstSome l = some a) :
    ∃ i, i < l.length ∧ l.getD i none = some a ∧
      ∀ j, j < i → l.getD j none = none := by
  induction l with
  | nil => simp [firstSome] at h
  | cons x rest ih =>
    cases x with
    | some b =>
      refine ⟨0, by simp, ?_, by omega⟩
      simpa [firstSome] using h
    | none =>
      obtain ⟨i, hi, hget, hprev⟩ := ih (by simpa [firstSome] using h)
      refine ⟨i + 1, by simpa using hi, by simpa using hget, ?_⟩
      intro j hj
      cases j with
      | zero => simp
      | succ j' => simpa using hprev j' (by omega)

theorem firstSome_eq_none {α : Type} (l : List (Option α))
    (h : firstSome l = none) : ∀ x ∈ l, x = none := by
  induction l with
  | nil => simp
  | cons x rest ih =>
    cases x with
    | some b => simp [firstSome] at h
    | none =>
      intro y hy
      rcases List.mem_cons.mp hy with h' | h'
      · exact h'
      · exact ih (by simpa [firstSome] using h) y h'

theorem downloadSong_eq_firstSome (env : DlEnv) (title : String) :
    downloadSong env title = firstSome (chainSteps env title) := by
  unfold downloadSong chainSteps
  cases tryCache env title <;> cases tryJioSaavn env title <;>
    cases trySoundCloud env title <;> cases tryYoutube env title <;>
    cases tryCacheFallback env <;> simp [firstSome]

theorem tryCache_source {env : DlEnv} {title : String} {r : DlResult}
    (h : tryCache env title = some r) : r.source = "cache" := by
  unfold tryCache at h
  cases hc : env.cacheHit <;> rw [hc] at h <;> simp only [Option.some.injEq] at h
  · cases h
  · subst h; rfl

theorem tryJioSaavn_source {env : DlEnv} {title : String} {r : DlResult}
    (h : tryJioSaavn env title = some r) : r.source = "jiosaavn" := by
  unfold tryJioSaavn at h
  cases hs : env.jsSearch <;> rw [hs] at h
  · cases h
  · cases hd : env.jsDownload <;> rw [hd] at h
    · cases h
    · simp only [Option.some.injEq] at h; subst h; rfl

theorem trySoundCloud_source {env : DlEnv} {title : String} {r : DlResult}
    (h : trySoundCloud env title = some r) : r.source = "soundcloud" := by
  unfold trySoundCloud at h
  cases hs : env.scSearch <;> rw [hs] at h
  · cases h
  · cases hd : env.scDownload <;> rw [hd] at h
    · cases h
    · simp only [Option.some.injEq] at h; subst h; rfl

theorem tryYoutube_source {env : DlEnv} {title : String} {r : DlResult}
    (h : tryYoutube env title = some r) : r.source = "youtube" := by
  unfold tryYoutube at h
  cases hy : env.ytDownload <;> rw [hy] at h
  · cases h
  · simp only [Option.some.injEq] at h; subst h; rfl

theorem tryCacheFallback_source {env : DlEnv} {r : DlResult}
    (h : tryCacheFallback env = some r) : r.source = "cache_fallback" := by
  unfold tryCacheFallback at h
  cases hc : env.randomCached <;> rw [hc] at h
  · cases h
  · simp only [Option.some.injEq] at h; subst h; rfl

theorem stepAt_source (env : DlEnv) (title : String) (i : Nat) (r : DlResult)
    (h : stepAt env title i = some r) :
    r.source = chainSources.getD i "" := by
  have h5 : i < 5 := by
    by_contra h5
    have hnone : stepAt env title i = none := by
      unfold stepAt
      apply List.getD_eq_default
      simp only [chainSteps, List.length_cons, List.length_nil]
      omega
    rw [hnone] at h
    cases h
  interval_cases i
  · simpa [chainSources] using tryCache_source h
  · simpa [chainSources] using tryJioSaavn_source h
  · simpa [chainSources] using trySoundCloud_source h
  · simpa [chainSources] using tryYoutube_source h
  · simpa [chainSources] using tryCacheFallback_source h

/-- C1: every acquisition returns a result whose source tag is one of the
five chain sources, and it is the tag of the first step in the fixed order
cache → JioSaavn → SoundCloud → YouTube → random-cached-fallback that
produced a valid result; all earlier steps produced none, a cache hit
short-circuits with source `"cache"`, and a `none` overall result means
every step failed. -/
theorem C1_download_chain_first_success (env : DlEnv) (title : String) :
    (∀ r, downloadSong env title = some r →
      ∃ i, i < 5 ∧ stepAt env title i = some r ∧
        r.source = chainSources.getD i "" ∧ r.source ∈ chainSources ∧
        ∀ j, j < i → stepAt env title j = none) ∧
    (downloadSong env title = none → ∀ i, i < 5 → stepAt env title i = none) ∧
    (∀ p, env.cacheHit = some p →
      downloadSong env title = some ⟨p, "cache", title, some env.cacheDuration⟩) := by
  refine ⟨?_, ?_, ?_⟩
  · intro r hr
    rw [downloadSong_eq_firstSome] at hr
    obtain ⟨i, hi, hget, hprev⟩ := firstSome_eq_some _ _ hr
    have hlen : (chainSteps env title).length = 5 := by simp [chainSteps]
    have hsrc : r.source = chainSources.getD i "" :=
      stepAt_source env title i r hget
    refine ⟨i, by omega, hget, hsrc, ?_, hprev⟩
    rw [hsrc]
    have hi5 : i < 5 := by omega
    unfold chainSources
    interval_cases i <;> simp
  · intro h i hi
    rw [downloadSong_eq_firstSome] at h
    have hall := firstSome_eq_none _ h
    interval_cases i
    · exact hall _ (by simp [chainSteps, stepAt])
    · exact hall _ (by simp [chainSteps, stepAt])
    · exact hall _ (by simp [chainSteps, stepAt])
    · exact hall _ (by simp [chainSteps, stepAt])
    · exact hall _ (by simp [chainSteps, stepAt])
  · intro p hp
    unfold downloadSong tryCache
    rw [hp]

/-- Concrete witness environment: cache and JioSaavn fail, SoundCloud
succeeds. -/
def envW : DlEnv :=
  { cacheHit := none, cacheDuration := 0,
    jsSearch := none, jsDownload := none,
    scSearch := some ("scurl", 200), scDownload := some "dl",
    scCachedPath := "cachedpath",
    ytDownload := some "ytpath", randomCached := some "rnd" }

theorem C1_witness :
    ∃ i, i < 5 ∧ stepAt envW "t" i = some ⟨"cachedpath", "soundcloud", "t", some 200⟩ ∧
      ("soundcloud" : String) = chainSources.getD i "" ∧
      ("soundcloud" : String) ∈ chainSources ∧
      ∀ j, j < i → stepAt envW "t" j = none :=
  (C1_download_chain_first_success envW "t").1
    ⟨"cachedpath", "soundcloud", "t", some 200⟩ rfl

/- ## Request Queue (src/config/requestHandler.py)

`requests.json` is a JSON object whose keys are the string positions
"1".."N" in insertion order; `add_request` appends under key `count + 1`
and every removal renumbers to keep the keys dense.  For the dense,
insertion-ordered states the code maintains, the file is faithfully
modelled as a list of entries, the entry at list index `i` holding queue
position `i + 1`. -/

/-- A queue entry: the track identity (`spotifyID`), the requester, the
stored `id` field, and the rest of the payload opaque. -/
structure QEntry where
  sid : String
  requester : String
  id : Nat
  payload : String
deriving DecidableEq, Repr

/-- Queue positions are dense: the entry at list index `i` stores
`id = i + 1`, exactly what `add_request` and the renumbering loops keep. -/
def denseIds (q : List QEntry) : Prop :=
  ∀ i, (h : i < q.length) → (q.get ⟨i, h⟩).id = i + 1

/-- The renumbering loop `for new_id, key in enumerate(..., start=1)`:
every remaining entry's `id` becomes its (1-based) position. -/
def renumber (q : List QEntry) : List QEntry :=
  q.mapIdx fun i e => { e with id := i + 1 }

/-- Default entry used to state lookups totally. -/
def qdef : QEntry := ⟨"", "", 0, ""⟩

/-- Entry at queue position `i + 1` (list index `i`). -/
def qget (q : List QEntry) (i : Nat) : QEntry := q.getD i qdef

/-- Error strings returned by `remove_request_by_index`, verbatim. -/
def err801 : String :=
  "error 801: Provide at least one valid index, song ID (Spotify or YouTube)."

def err702 (index : Nat) : String :=
  "error 702: Request with index " ++ toString index ++ " does not exist."

def err701 : String :=
  "error 701: You are not authorized to remove this song request."

/-- `RequestHandler.remove_request_by_index`, for a dense queue state:
key membership `str(index) in request_data` is `1 ≤ index ≤ N`; a
non-requester non-moderator is rejected; otherwise the entry is deleted
and the remaining entries renumbered. -/
def removeRequestByIndex (q : List QEntry) (index : Nat) (requester : String)
    (moderator : Bool) : Except String (List QEntry) :=
  if index < 1 ∨ q.length < index then
    .error (err702 index)
  else if ¬moderator ∧ (qget q (index - 1)).requester ≠ requester then
    .error err701
  else
    .ok (renumber (q.eraseIdx (index - 1)))

theorem renumber_length (q : List QEntry) : (renumber q).length = q.length := by
  simp [renumber]

theorem renumber_getD (q : List QEntry) (i : Nat) (h : i < q.length) :
    (renumber q).getD i qdef = { q.getD i qdef with id := i + 1 } := by
  rw [List.getD_eq_getElem _ _ (by simpa [renumber] using h),
    List.getD_eq_getElem _ _ h]
  simp [renumber]

theorem qentry_eta (e : QEntry) (n : Nat) (h : e.id = n) :
    { e with id := n } = e := by
  cases e
  simp only [QEntry.mk.injEq, and_true, true_and]
  exact h.symm

theorem map_eraseIdx {α β : Type} (f : α → β) (l : List α) (i : Nat) :
    (l.eraseIdx i).map f = (l.map f).eraseIdx i := by
  induction l generalizing i with
  | nil => simp
  | cons x xs ih =>
    cases i with
    | zero => simp
    | succ n => simp [List.eraseIdx_cons_succ, ih]

theorem map_renumber (q : List QEntry) :
    (renumber q).map (·.sid) = q.map (·.sid) := by
  apply List.ext_getElem
  · simp [renumber]
  · intro i h1 h2
    have hq : i < q.length := by simpa [renumber] using h2
    simp [renumber]

/-- C2: from a dense queue of length `N`, removing position `k` (`1 ≤ k ≤ N`)
by the requester or a moderator succeeds, and in the new queue the entries
at positions `1..k-1` are unchanged, the entries formerly at `k+1..N` sit
one position lower with their `id` renumbered accordingly (so positions are
again dense `1..N-1`), and the track identities are the old ones minus the
removed entry's. -/
theorem C2_remove_renumbers (q : List QEntry) (k : Nat) (requester : String)
    (moderator : Bool)
    (hdense : denseIds q) (hk1 : 1 ≤ k) (hkN : k ≤ q.length)
    (hauth : moderator = true ∨ (qget q (k - 1)).requester = requester) :
    ∃ q', removeRequestByIndex q k requester moderator = .ok q' ∧
      q'.length = q.length - 1 ∧
      denseIds q' ∧
      (∀ i, i < k - 1 → qget q' i = qget q i) ∧
      (∀ i, k - 1 ≤ i → i < q.length - 1 →
        qget q' i = { qget q (i + 1) with id := i + 1 }) ∧
      q'.map (·.sid) = (q.map (·.sid)).eraseIdx (k - 1) := by
  have hk1' : k - 1 < q.length := by omega
  have herase : (q.eraseIdx (k - 1)).length = q.length - 1 :=
    List.length_eraseIdx_of_lt hk1'
  have hlen' : (renumber (q.eraseIdx (k - 1))).length = q.length - 1 := by
    rw [renumber_length, herase]
  refine ⟨renumber (q.eraseIdx (k - 1)), ?_, hlen', ?_, ?_, ?_, ?_⟩
  · unfold removeRequestByIndex
    rw [if_neg (by omega), if_neg ?_]
    push_neg
    intro hmod
    rcases hauth with h | h
    · rw [h] at hmod
      exact absurd rfl hmod
    · exact h
  · intro i h
    have hi : i < (q.eraseIdx (k - 1)).length := by
      rw [renumber_length] at h
      exact h
    have hq := renumber_getD (q.eraseIdx (k - 1)) i hi
    have hg : (renumber (q.eraseIdx (k - 1))).get ⟨i, h⟩ =
        (renumber (q.eraseIdx (k - 1))).getD i qdef := by
      rw [List.getD_eq_getElem _ _ h]
      simp
    rw [hg, hq]
  · intro i hik
    have hi : i < q.length := by omega
    have hi' : i < (q.eraseIdx (k - 1)).length := by omega
    show (renumber (q.eraseIdx (k - 1))).getD i qdef = qget q i
    rw [renumber_getD _ _ hi']
    have hsame : (q.eraseIdx (k - 1)).getD i qdef = q.getD i qdef := by
      rw [List.getD_eq_getElem _ _ hi', List.getD_eq_getElem _ _ hi]
      exact List.getElem_eraseIdx_of_lt _ _ _ hi' hik
    rw [hsame]
    have hid : (q.getD i qdef).id = i + 1 := by
      rw [List.getD_eq_getElem _ _ hi]
      simpa using hdense i hi
    rw [qentry_eta _ _ hid]
    rfl
  · intro i hik hiN
    have hi' : i < (q.eraseIdx (k - 1)).length := by omega
    show (renumber (q.eraseIdx (k - 1))).getD i qdef =
      { qget q (i + 1) with id := i + 1 }
    rw [renumber_getD _ _ hi']
    have hsh : (q.eraseIdx (k - 1)).getD i qdef = q.getD (i + 1) qdef := by
      rw [List.getD_eq_getElem _ _ hi',
        List.getD_eq_getElem _ _ (show i + 1 < q.length by omega)]
      exact List.getElem_eraseIdx_of_ge _ _ _ hi' hik
    rw [hsh]
    rfl
  · rw [map_renumber, map_eraseIdx]

/-- Concrete witness queue: three entries, position 2 removed by its
requester (the spec scenario: positions 1,2,3 → 1,2, old 3 now at 2). -/
def qW : List QEntry :=
  [⟨"sidA", "alice", 1, "a"⟩, ⟨"sidB", "bob", 2, "b"⟩, ⟨"sidC", "carol", 3, "c"⟩]

theorem C2_witness :
    ∃ q', removeRequestByIndex qW 2 "bob" false = .ok q' ∧
      q'.length = qW.length - 1 ∧
      denseIds q' ∧
      (∀ i, i < 1 → qget q' i = qget qW i) ∧
      (∀ i, 1 ≤ i → i < qW.length - 1 →
        qget q' i = { qget qW (i + 1) with id := i + 1 }) ∧
      q'.map (·.sid) = (qW.map (·.sid)).eraseIdx 1 :=
  C2_remove_renumbers qW 2 "bob" false
    (by
      intro i h
      have h3 : i < 3 := by simpa [qW] using h
      interval_cases i <;> rfl) (by omega) (by simp [qW])
    (Or.inr rfl)

/- ## Playback State Store (src/config/songHandler.py, src/config/DJ.py)

`now_playing.json` and `next_coming.json` each hold either a single JSON
object or a list; the contents are modelled as a list of records (an
object is a one-element list, `{}` is `[]`).  The writers in the source:
`save_to_next_coming` writes one object, the YouTube path of
`download_song_from_id` writes a one-element list, `move_to_now_playing`
copies next-coming into now-playing and writes `{}` to next-coming,
`build_now_playing_from_file` and the promo branch of the stream loop write
a single now-playing record, the post-download duration fix rewrites the
last next-coming record in place, and `get_next_coming_data`'s auto-fix
rewrites a list file as its first element. -/

/-- A playback record (one JSON object in the state files). -/
structure PRec where
  sid : String
  title : String
  album : String
  durationsec : Nat
deriving DecidableEq, Repr

/-- Contents of the two playback-state files. -/
structure PState where
  now : List PRec
  next : List PRec
deriving DecidableEq, Repr

/-- The writes the source performs on the two files. -/
inductive POp
  /-- `SongHandler.save_to_next_coming` (one object) -/
  | saveNextComing (r : PRec)
  /-- the YouTube-only path of `download_song_from_id` (`[metadata]`) -/
  | saveNextYt (r : PRec)
  /-- `SongHandler.move_to_now_playing` -/
  | moveToNowPlaying
  /-- `SongHandler.build_now_playing_from_file` (one-element list) -/
  | buildNowPlaying (r : PRec)
  /-- the promo branch of the stream loop (one object) -/
  | promoNow (r : PRec)
  /-- the post-download `next_coming_data[-1]` duration fix -/
  | updateNextDuration (d : Nat)
  /-- `get_next_coming_data`'s list-to-object auto-fix -/
  | autoFixNext

/-- Rewrite the last record's duration (the `[-1]` update); the source
only runs it on a non-empty list, and it never changes the length. -/
def updLast (d : Nat) : List PRec → List PRec
  | [] => []
  | [r] => [{ r with durationsec := d }]
  | r :: rest => r :: updLast d rest

/-- One write, as the source performs it.  `move_to_now_playing` is a
no-op on empty next-coming data (`if next_coming_data:`); otherwise it
saves the data as now-playing and then writes `{}` to next-coming. -/
def pstep : POp → PState → PState
  | .saveNextComing r, s => { s with next := [r] }
  | .saveNextYt r, s => { s with next := [r] }
  | .moveToNowPlaying, s =>
      if s.next = [] then s else { now := s.next, next := [] }
  | .buildNowPlaying r, s => { s with now := [r] }
  | .promoNow r, s => { s with now := [r] }
  | .updateNextDuration d, s => { s with next := updLast d s.next }
  | .autoFixNext, s => { s with next := s.next.take 1 }

/-- Both state files start empty. -/
def pinit : PState := ⟨[], []⟩

/-- Run a sequence of writes. -/
def prun (ops : List POp) (s : PState) : PState :=
  ops.foldl (fun st op => pstep op st) s

/-- At most one record in each file. -/
def pinv (s : PState) : Prop := s.now.length ≤ 1 ∧ s.next.length ≤ 1

theorem updLast_length (d : Nat) (l : List PRec) :
    (updLast d l).length = l.length := by
  induction l with
  | nil => rfl
  | cons r rest ih =>
    cases rest with
    | nil => rfl
    | cons r2 rest2 => simpa [updLast] using ih

theorem pstep_preserves_pinv (op : POp) (s : PState) (h : pinv s) :
    pinv (pstep op s) := by
  obtain ⟨hn, hx⟩ := h
  cases op with
  | saveNextComing r => exact ⟨hn, by simp [pstep]⟩
  | saveNextYt r => exact ⟨hn, by simp [pstep]⟩
  | moveToNowPlaying =>
    simp only [pstep]
    by_cases he : s.next = []
    · rw [if_pos he]; exact ⟨hn, hx⟩
    · rw [if_neg he]; exact ⟨hx, by simp⟩
  | buildNowPlaying r => exact ⟨by simp [pstep], hx⟩
  | promoNow r => exact ⟨by simp [pstep], hx⟩
  | updateNextDuration d =>
    exact ⟨hn, by simpa [pstep, updLast_length] using hx⟩
  | autoFixNext =>
    refine ⟨hn, ?_⟩
    simp only [pstep]
    exact le_trans (List.length_take_le 1 s.next) (le_refl 1)

/-- C4: every state reachable by the source's writes holds at most one
"now playing" and at most one "next coming" record; promotion with a
non-empty next slot makes that record the "now playing" one and leaves
next-coming empty in the same step; and next-coming stays empty under
every write other than the two acquisition writes. -/
theorem C4_single_now_next :
    (∀ ops : List POp, pinv (prun ops pinit)) ∧
    (∀ s : PState, s.next ≠ [] →
      (pstep .moveToNowPlaying s).now = s.next ∧
      (pstep .moveToNowPlaying s).next = []) ∧
    (∀ s : PState, ∀ op : POp, s.next = [] →
      (∀ r, op ≠ .saveNextComing r) → (∀ r, op ≠ .saveNextYt r) →
      (pstep op s).next = []) := by
  refine ⟨?_, ?_, ?_⟩
  · intro ops
    suffices h : ∀ s, pinv s → pinv (prun ops s) from h pinit ⟨by simp [pinit], by simp [pinit]⟩
    induction ops with
    | nil => intro s hs; exact hs
    | cons op rest ih =>
      intro s hs
      exact ih _ (pstep_preserves_pinv op s hs)
  · intro s hne
    simp [pstep, if_neg hne]
  · intro s op hempty hnc hny
    cases op with
    | saveNextComing r => exact absurd rfl (hnc r)
    | saveNextYt r => exact absurd rfl (hny r)
    | moveToNowPlaying => simp [pstep, hempty]
    | buildNowPlaying r => simpa [pstep] using hempty
    | promoNow r => simpa [pstep] using hempty
    | updateNextDuration d => simp [pstep, hempty, updLast]
    | autoFixNext => simp [pstep, hempty]

/-- Concrete state for the witness: one record waiting in next-coming. -/
def pW : PState := ⟨[⟨"n", "Now", "A", 100⟩], [⟨"x", "Next", "B", 200⟩]⟩

theorem C4_witness :
    pinv (prun [POp.saveNextComing ⟨"x", "Next", "B", 200⟩,
      POp.moveToNowPlaying] pinit) ∧
    ((pstep .moveToNowPlaying pW).now = pW.next ∧
      (pstep .moveToNowPlaying pW).next = []) ∧
    (pstep (.updateNextDuration 7) ⟨pW.now, []⟩).next = [] :=
  ⟨C4_single_now_next.1 _,
   C4_single_now_next.2.1 pW (by simp [pW]),
   C4_single_now_next.2.2 ⟨pW.now, []⟩ (.updateNextDuration 7) rfl
     (fun r h => by cases h) (fun r h => by cases h)⟩

/- ## History windows, submissions and selection
   (src/config/songHandler.py, src/config/request_adder.py, src/config/DJ.py)

`history.json` maps track ID to its entry; the `played` timestamp is
modelled as seconds (an integer), `datetime.now()` as the `now` argument.
An empty string models a missing/falsy ID (`if not spotify_id`). -/

/-- `SongHandler.track_already_played`: 3-hour re-submission window. -/
def trackAlreadyPlayed (history : List (String × Int)) (now : Int)
    (sid : String) : Bool :=
  if sid = "" then false
  else
    match history.lookup sid with
    | some t => decide (now - t < 3 * 3600)
    | none => false

/-- `SongHandler.track_already_played_id`: 5-hour re-selection window. -/
def trackAlreadyPlayedId (history : List (String × Int)) (now : Int)
    (sid : String) : Bool :=
  if sid = "" then false
  else
    match history.lookup sid with
    | some t => decide (now - t < 5 * 3600)
    | none => false

/-- Shape of a playback JSON file as `next_coming_file_exists` /
`now_playing_file_exists` see it: a single object or a list of objects.
Iterating a dict yields its key strings, none of which parses as an
object, so the membership scan only ever matches in the list shape. -/
inductive JShape
  | dict (r : Option PRec)
  | list (rs : List PRec)
deriving DecidableEq, Repr

/-- `next_coming_file_exists` / `now_playing_file_exists`. -/
def fileExistsSid : JShape → String → Bool
  | .dict _, _ => false
  | .list rs, sid => rs.any (fun r => r.sid == sid)

/-- `RequestHandler.check_request_exists`. -/
def checkRequestExists (q : List QEntry) (sid : String) : Bool :=
  q.any (fun e => e.sid == sid)

/-- `RequestHandler.add_request`: appended under key `count + 1`. -/
def addRequest (q : List QEntry) (sid requester : String) : List QEntry :=
  q ++ [⟨sid, requester, q.length + 1, ""⟩]

/-- The song-data dict `request_maker` builds or looks up. -/
structure SongData where
  sid : String
  title : String
  artist : String
deriving DecidableEq, Repr

/-- Arguments and outcome oracles of one `request_maker` call. -/
structure RMParams where
  songId : String
  requester : String
  /-- the `app` argument (`none` = falsy) -/
  app : Option String
  /-- `get_app_id(app)` -/
  appId : Option String
  youtubeUrl : String
  /-- the `title` argument (`none` = absent/falsy) -/
  title : Option String
  /-- the `artist` argument -/
  artist : Option String
  /-- `get_song_data_by_id` outcome (`none` = an error dict) -/
  lookup : Option SongData
  /-- the error string inside a failed lookup's dict -/
  lookupErrMsg : String
  /-- `datetime.now()` -/
  now : Int

/-- The state `request_maker` reads and may write. -/
structure RMState where
  history : List (String × Int)
  blocked : List String
  queue : List QEntry
  nextFile : JShape
  nowFile : JShape
deriving DecidableEq, Repr

/-- `request_maker` returns either the song-data dict or an error string. -/
inductive RMResult
  | ok (d : SongData)
  | err (msg : String)
deriving DecidableEq, Repr

def RMResult.isErr : RMResult → Bool
  | .ok _ => false
  | .err _ => true

/-- Python's `s.startswith(pre)`, on the character data. -/
def strStartsWith (s pre : String) : Bool :=
  s.data.take pre.data.length == pre.data

/-- `is_youtube_only = song_id.startswith("youtube_") and title and artist`. -/
def isYoutubeOnly (p : RMParams) : Bool :=
  strStartsWith p.songId "youtube_" && p.title.isSome && p.artist.isSome

/-- Rejection strings of `request_maker`, verbatim. -/
def e609 : String := "error 609: Song recently played."

def e709 : String := "error 709: Requested song is blocked."

def e708 : String :=
  "error 708: You have already requested this song, and it is waiting in the request queue to be played."

def e707 : String := "error 707: This song is already in the queue to be played."

def e706 : String := "error 706: This song is currently playing."

/-- `RequestAdder.request_maker`: unknown-app and failed-lookup early
returns, then the five rejection checks in source order, then the enqueue. -/
def requestMaker (s : RMState) (p : RMParams) : RMResult × RMState :=
  if p.app.isSome ∧ p.appId = none then
    (.err ("Unknown app: " ++ p.app.getD ""), s)
  else
    match (if isYoutubeOnly p then
            some ⟨p.songId, p.title.getD "", p.artist.getD ""⟩
          else p.lookup : Option SongData) with
    | none => (.err p.lookupErrMsg, s)
    | some d =>
      if trackAlreadyPlayed s.history p.now d.sid then (.err e609, s)
      else if !isYoutubeOnly p && s.blocked.contains d.sid then (.err e709, s)
      else if checkRequestExists s.queue d.sid then (.err e708, s)
      else if fileExistsSid s.nextFile d.sid then (.err e707, s)
      else if fileExistsSid s.nowFile d.sid then (.err e706, s)
      else (.ok d, { s with queue := addRequest s.queue d.sid p.requester })

/-- `remove_request_by_index` as a state transformer: the file is saved
only on success, so an error leaves the queue as it was. -/
def removeRequestRun (q : List QEntry) (index : Nat) (requester : String)
    (moderator : Bool) : String × List QEntry :=
  match removeRequestByIndex q index requester moderator with
  | .error e => (e, q)
  | .ok q' =>
      ("Request with index " ++ toString index ++
        " has been removed successfully.", q')

/- ### The algorithmic selector (DJ.get_next_song_from_AIplaylist)

The AI branch is a bypassed string literal in the source, so every
selection goes through the playlist loop: it pulls `pl.next_song()`
repeatedly, skipping "No tracks available" (abort), message/ID-less
entries, blocked tracks and tracks inside the 5-hour window.  The stream
of `pl.next_song()` results is modelled as a list. -/

/-- One `pl.next_song()` result. -/
structure PTrack where
  tid : String
  title : String
  artist : String
deriving DecidableEq, Repr

/-- The shapes a `pl.next_song()` return can have. -/
inductive PlItem
  /-- `{"message": "No tracks available!"}` -/
  | msgNoTracks
  /-- some other `message` dict (skipped) -/
  | msgOther
  /-- a track dict; an empty `tid` models a missing `track_id`/`id` -/
  | track (t : PTrack)
deriving DecidableEq, Repr

/-- The `while True` selection loop of `get_next_song_from_AIplaylist`. -/
def selectLoop (blocked : List String) (history : List (String × Int))
    (now : Int) : List PlItem → Option PTrack
  | [] => none
  | .msgNoTracks :: _ => none
  | .msgOther :: rest => selectLoop blocked history now rest
  | .track t :: rest =>
      if t.tid = "" then selectLoop blocked history now rest
      else if blocked.contains t.tid || trackAlreadyPlayedId history now t.tid then
        selectLoop blocked history now rest
      else some t

/-- C3: a track whose history entry is under 3 hours old is rejected with
code 609 on re-submission through `request_maker`, on the catalog-ID path
and on the manual (video-platform) path alike; the selector never returns
a track whose history entry is under 5 hours old (nor a blocked one); and
the two windows are exactly `3 * 3600` and `5 * 3600` seconds. -/
theorem C3_suppression_windows :
    (∀ (s : RMState) (p : RMParams) (d : SongData),
      ¬(p.app.isSome ∧ p.appId = none) →
      isYoutubeOnly p = false → p.lookup = some d →
      trackAlreadyPlayed s.history p.now d.sid = true →
      requestMaker s p = (.err e609, s)) ∧
    (∀ (s : RMState) (p : RMParams),
      ¬(p.app.isSome ∧ p.appId = none) →
      isYoutubeOnly p = true →
      trackAlreadyPlayed s.history p.now p.songId = true →
      requestMaker s p = (.err e609, s)) ∧
    (∀ (blocked : List String) (history : List (String × Int)) (now : Int)
        (items : List PlItem) (t : PTrack),
      selectLoop blocked history now items = some t →
      trackAlreadyPlayedId history now t.tid = false ∧
      blocked.contains t.tid = false) ∧
    (∀ (history : List (String × Int)) (now tp : Int) (sid : String),
      sid ≠ "" → history.lookup sid = some tp →
      (trackAlreadyPlayed history now sid = true ↔ now - tp < 3 * 3600) ∧
      (trackAlreadyPlayedId history now sid = true ↔ now - tp < 5 * 3600)) := by
  refine ⟨?_, ?_, ?_, ?_⟩
  · intro s p d happ hyt hlook hplayed
    unfold requestMaker
    rw [if_neg happ]
    simp only [hyt, if_neg Bool.false_ne_true, hlook]
    simp [hplayed]
  · intro s p happ hyt hplayed
    unfold requestMaker
    rw [if_neg happ]
    simp only [hyt, if_pos rfl]
    simp [hplayed]
  · intro blocked history now items t hsel
    induction items with
    | nil => simp [selectLoop] at hsel
    | cons item rest ih =>
      cases item with
      | msgNoTracks => simp [selectLoop] at hsel
      | msgOther => exact ih (by simpa [selectLoop] using hsel)
      | track t2 =>
        simp only [selectLoop] at hsel
        by_cases h0 : t2.tid = ""
        · rw [if_pos h0] at hsel
          exact ih hsel
        · rw [if_neg h0] at hsel
          by_cases h1 : (blocked.contains t2.tid ||
              trackAlreadyPlayedId history now t2.tid) = true
          · rw [if_pos h1] at hsel
            exact ih hsel
          · rw [if_neg h1] at hsel
            have ht : t2 = t := Option.some.inj hsel
            subst ht
            constructor
            · cases hb : trackAlreadyPlayedId history now t2.tid
              · rfl
              · exact absurd (by rw [hb]; simp) h1
            · cases ha : blocked.contains t2.tid
              · rfl
              · exact absurd (by rw [ha]; simp) h1
  · intro history now tp sid hne hlk
    constructor
    · unfold trackAlreadyPlayed
      rw [if_neg hne, hlk]
      simp
    · unfold trackAlreadyPlayedId
      rw [if_neg hne, hlk]
      simp

/-- Concrete witness data for the 3-hour catalog-path rejection: the
track was played at time 0 and is re-submitted one hour later. -/
def rmsW : RMState := ⟨[("sp1", 0)], [], [], .dict none, .dict none⟩

def rmpW1 : RMParams :=
  ⟨"sp1", "alice", none, none, "", none, none, some ⟨"sp1", "T", "A"⟩, "", 3600⟩

/-- Concrete witness data for the manual (video-platform) path. -/
def rmsW2 : RMState := ⟨[("youtube_x", 0)], [], [], .dict none, .dict none⟩

def rmpW2 : RMParams :=
  ⟨"youtube_x", "alice", none, none, "u", some "T", some "A", none, "", 3600⟩

theorem C3_witness :
    requestMaker rmsW rmpW1 = (.err e609, rmsW) ∧
    requestMaker rmsW2 rmpW2 = (.err e609, rmsW2) ∧
    (trackAlreadyPlayedId [("h1", (0 : Int))] 3600 "ok" = false ∧
      (["b1"] : List String).contains "ok" = false) ∧
    ((trackAlreadyPlayed [("s", (0 : Int))] 3600 "s" = true ↔
        (3600 : Int) - 0 < 3 * 3600) ∧
      (trackAlreadyPlayedId [("s", (0 : Int))] 3600 "s" = true ↔
        (3600 : Int) - 0 < 5 * 3600)) :=
  ⟨C3_suppression_windows.1 rmsW rmpW1 ⟨"sp1", "T", "A"⟩ (by decide) (by decide)
     rfl (by decide),
   C3_suppression_windows.2.1 rmsW2 rmpW2 (by decide) (by decide) (by decide),
   C3_suppression_windows.2.2.1 ["b1"] [("h1", 0)] 3600
     [.track ⟨"h1", "x", "y"⟩, .track ⟨"ok", "x", "y"⟩] ⟨"ok", "x", "y"⟩ rfl,
   C3_suppression_windows.2.2.2 [("s", 0)] 3600 0 "s" (by decide) rfl⟩

/-- C8: every error return of `request_maker` leaves the state untouched;
every error return of `remove_request_by_index` leaves the queue untouched;
an unauthorized removal (neither requester nor moderator) is rejected with
exactly code 701 and no mutation; and the rejection codes 609, 709, 708,
707, 706, 701 are pairwise distinct. -/
theorem C8_rejections_pure_distinct :
    (∀ (s : RMState) (p : RMParams) (m : String),
      (requestMaker s p).1 = .err m → (requestMaker s p).2 = s) ∧
    (∀ (q : List QEntry) (k : Nat) (r : String) (mod : Bool) (e : String),
      removeRequestByIndex q k r mod = .error e →
      removeRequestRun q k r mod = (e, q)) ∧
    (∀ (q : List QEntry) (k : Nat) (r : String),
      1 ≤ k → k ≤ q.length → (qget q (k - 1)).requester ≠ r →
      removeRequestRun q k r false = (err701, q)) ∧
    List.Pairwise (· ≠ ·) [e609, e709, e708, e707, e706, err701] := by
  refine ⟨?_, ?_, ?_, ?_⟩
  · intro s p m
    unfold requestMaker
    repeat' split
    all_goals intro h
    all_goals first | rfl | simp at h
  · intro q k r mod e h
    unfold removeRequestRun
    rw [h]
  · intro q k r hk1 hkN hreq
    have h : removeRequestByIndex q k r false = .error err701 := by
      unfold removeRequestByIndex
      rw [if_neg (by omega), if_pos ⟨by simp, hreq⟩]
    unfold removeRequestRun
    rw [h]
  · decide

theorem C8_witness :
    (requestMaker rmsW rmpW1).2 = rmsW ∧
    removeRequestRun qW 5 "alice" false = (err702 5, qW) ∧
    removeRequestRun qW 1 "eve" false = (err701, qW) :=
  ⟨C8_rejections_pure_distinct.1 rmsW rmpW1 e609 (by decide),
   C8_rejections_pure_distinct.2.1 qW 5 "alice" false (err702 5) rfl,
   C8_rejections_pure_distinct.2.2.1 qW 1 "eve" (by decide) (by decide)
     (by decide)⟩

/- ## Named Task Supervisor (src/config/DJ.py, class TaskGroup)

`manage_task(task_name, coro)` walks the registered task set, calls
`cancel()` on every task whose name matches, then creates and names a new
task.  Cancellation is cooperative, so a cancelled handle may linger until
its done-callback removes it; "live" below means not cancelled. -/

/-- A registered asyncio task handle. -/
structure Task where
  name : String
  tid : Nat
  alive : Bool
deriving DecidableEq, Repr

/-- The supervisor's task set, plus a counter giving fresh task ids. -/
structure TaskGroup where
  tasks : List Task
  fresh : Nat
deriving DecidableEq, Repr

/-- `TaskGroup.manage_task`: cancel every existing task with the name,
then create and register the new one. -/
def manageTask (g : TaskGroup) (name : String) : TaskGroup :=
  { tasks := (g.tasks.map fun t =>
      if t.name = name then { t with alive := false } else t)
      ++ [⟨name, g.fresh, true⟩],
    fresh := g.fresh + 1 }

/-- The live instances registered under `name`. -/
def liveUnder (g : TaskGroup) (name : String) : List Task :=
  g.tasks.filter fun t => t.alive && t.name == name

/-- C9: after re-registering `name`, the live instances under `name` are
exactly the one new task — every prior instance with that name has been
cancelled first — and tasks under other names are untouched. -/
theorem C9_single_live_instance (g : TaskGroup) (name : String) :
    liveUnder (manageTask g name) name = [⟨name, g.fresh, true⟩] ∧
    (liveUnder (manageTask g name) name).length = 1 ∧
    (∀ other, other ≠ name →
      liveUnder (manageTask g name) other = liveUnder g other) := by
  have hmain : liveUnder (manageTask g name) name = [⟨name, g.fresh, true⟩] := by
    unfold liveUnder manageTask
    rw [List.filter_append]
    have hnil : (g.tasks.map fun t =>
        if t.name = name then { t with alive := false } else t).filter
        (fun t => t.alive && t.name == name) = [] := by
      rw [List.filter_eq_nil_iff]
      intro a ha
      obtain ⟨t, _, rfl⟩ := List.mem_map.mp ha
      by_cases hn : t.name = name
      · simp [hn]
      · simp [if_neg hn, hn]
    rw [hnil]
    simp
  refine ⟨hmain, by rw [hmain]; rfl, ?_⟩
  intro other hother
  unfold liveUnder manageTask
  rw [List.filter_append]
  have hlast : ([⟨name, g.fresh, true⟩] : List Task).filter
      (fun t => t.alive && t.name == other) = [] := by
    simp [Ne.symm hother]
  rw [hlast, List.append_nil]
  have hmap : ∀ (l : List Task), (l.map fun t =>
      if t.name = name then { t with alive := false } else t).filter
      (fun t => t.alive && t.name == other) =
      l.filter (fun t => t.alive && t.name == other) := by
    intro l
    induction l with
    | nil => rfl
    | cons t rest ih =>
      by_cases hn : t.name = name
      · have hno : (t.alive && t.name == other) = false := by
          rw [hn]
          simp [Ne.symm hother]
        simp only [List.map_cons, if_pos hn, List.filter_cons]
        rw [ih]
        simp [hno, hn, Ne.symm hother]
      · simp only [List.map_cons, if_neg hn, List.filter_cons]
        rw [ih]
  rw [hmap]

/-- Concrete witness supervisor state for the re-registration property. -/
def tgW : TaskGroup :=
  ⟨[⟨"song_downloader", 0, true⟩, ⟨"update_position", 1, true⟩], 2⟩

theorem C9_witness :
    liveUnder (manageTask tgW "song_downloader") "song_downloader" =
      [⟨"song_downloader", 2, true⟩] ∧
    liveUnder (manageTask tgW "song_downloader") "update_position" =
      liveUnder tgW "update_position" :=
  ⟨(C9_single_live_instance tgW "song_downloader").1,
   (C9_single_live_instance tgW "song_downloader").2.2 "update_position"
     (by decide)⟩

/- ## Streaming-Protocol Client (src/main.py, stream_single_file)

The per-file stream loop: read a chunk from the transcoding subprocess, end
on EOF, consult the shared skip flag before forwarding (only when the file
is not a promo: `if skip.skip_status and not is_promo`), then write the
chunk, aborting on `ConnectionResetError`/`BrokenPipeError`.  Chunks are
identified by index; `writeOk i` says whether writing chunk `i` succeeds,
and `extSet i` says whether an external actor sets the skip flag just
before iteration `i` consults it. -/

/-- The shared flag object `skip` (fields `skip_status`, `stop_counter`). -/
structure SkipSt where
  skipStatus : Bool
  stopCounter : Bool
deriving DecidableEq, Repr

/-- An external `skip.skip_status = True` (the one-shot skip action). -/
def setFlag (st : SkipSt) : SkipSt := { st with skipStatus := true }

/-- How one call to `stream_single_file` ended. -/
inductive StreamOutcome
  /-- natural EOF of the transcoding subprocess -/
  | finished
  /-- ended early by the skip flag -/
  | skipped
  /-- a write to the relay failed (broken pipe / reset) -/
  | writerFailed
deriving DecidableEq, Repr

/-- The observable results of one `stream_single_file` call. -/
structure StreamRes where
  outcome : StreamOutcome
  /-- the Python return value (`False` signals reconnect) -/
  ok : Bool
  /-- indices of chunks written to the relay, in order -/
  forwarded : List Nat
  /-- the transcoding subprocess was terminated or had exited -/
  procTerminated : Bool
  /-- the shared flag state after the call -/
  finalSkip : SkipSt
deriving DecidableEq, Repr

/-- The chunk loop of `stream_single_file`, from chunk index `i`. -/
def streamGo (isPromo : Bool) (writeOk extSet : Nat → Bool) :
    List Nat → Nat → SkipSt → StreamRes
  | [], _, st => ⟨.finished, true, [], true, st⟩
  | _ :: rest, i, st =>
      let st1 := if extSet i then setFlag st else st
      if st1.skipStatus && !isPromo then
        ⟨.skipped, true, [], true, ⟨false, true⟩⟩
      else if writeOk i then
        let r := streamGo isPromo writeOk extSet rest (i + 1) st1
        { r with forwarded := i :: r.forwarded }
      else
        ⟨.writerFailed, false, [], true, st1⟩

/-- `StreamManager.stream_single_file` on an existing file whose
transcoded byte stream is `chunks`. -/
def streamSingleFile (isPromo : Bool) (writeOk extSet : Nat → Bool)
    (chunks : List Nat) (st : SkipSt) : StreamRes :=
  streamGo isPromo writeOk extSet chunks 0 st

theorem streamGo_cons_skip (writeOk extSet : Nat → Bool) (c : Nat)
    (rest : List Nat) (i0 : Nat) (st : SkipSt)
    (h : extSet i0 = true ∨ st.skipStatus = true) :
    streamGo false writeOk extSet (c :: rest) i0 st =
      ⟨.skipped, true, [], true, ⟨false, true⟩⟩ := by
  rcases h with h | h
  · simp [streamGo, h, setFlag]
  · cases he : extSet i0 <;> simp [streamGo, he, h, setFlag]

theorem streamGo_cons_write (writeOk extSet : Nat → Bool) (c : Nat)
    (rest : List Nat) (i0 : Nat) (st : SkipSt)
    (hst : st.skipStatus = false) (he0 : extSet i0 = false)
    (hw0 : writeOk i0 = true) :
    streamGo false writeOk extSet (c :: rest) i0 st =
      { streamGo false writeOk extSet rest (i0 + 1) st with
        forwarded := i0 :: (streamGo false writeOk extSet rest (i0 + 1) st).forwarded } := by
  simp only [streamGo, he0, hst, hw0]
  simp [hst]

theorem streamGo_cons_fail (writeOk extSet : Nat → Bool) (c : Nat)
    (rest : List Nat) (i0 : Nat) (st : SkipSt)
    (hst : st.skipStatus = false) (he0 : extSet i0 = false)
    (hw0 : writeOk i0 = false) :
    streamGo false writeOk extSet (c :: rest) i0 st =
      ⟨.writerFailed, false, [], true, st⟩ := by
  simp [streamGo, he0, hst, hw0]

theorem streamGo_cons_promo (writeOk extSet : Nat → Bool) (c : Nat)
    (rest : List Nat) (i0 : Nat) (st : SkipSt) (hw0 : writeOk i0 = true) :
    streamGo true writeOk extSet (c :: rest) i0 st =
      { streamGo true writeOk extSet rest (i0 + 1)
          (if extSet i0 then setFlag st else st) with
        forwarded := i0 :: (streamGo true writeOk extSet rest (i0 + 1)
          (if extSet i0 then setFlag st else st)).forwarded } := by
  cases he : extSet i0 <;> simp [streamGo, he, hw0]

/-- Non-promo stream whose flag is clear until it is set externally right
before chunk `i0 + n`: the first `n` chunks are forwarded once each, then
the stream ends `skipped` with the flag cleared and `stop_counter` set. -/
theorem streamGo_skip_at (writeOk extSet : Nat → Bool) :
    ∀ (n : Nat) (chunks : List Nat) (i0 : Nat) (st : SkipSt),
    st.skipStatus = false →
    (∀ j, j < n → writeOk (i0 + j) = true) →
    (∀ j, j < n → extSet (i0 + j) = false) →
    extSet (i0 + n) = true →
    n < chunks.length →
    streamGo false writeOk extSet chunks i0 st =
      ⟨.skipped, true, List.range' i0 n, true, ⟨false, true⟩⟩ := by
  intro n
  induction n with
  | zero =>
    intro chunks i0 st hst _ _ hext hlen
    cases chunks with
    | nil => simp at hlen
    | cons c rest =>
      rw [show i0 + 0 = i0 from rfl] at hext
      rw [streamGo_cons_skip writeOk extSet c rest i0 st (Or.inl hext)]
      simp
  | succ n ih =>
    intro chunks i0 st hst hw hext hextn hlen
    cases chunks with
    | nil => simp at hlen
    | cons c rest =>
      have he0 : extSet i0 = false := by simpa using hext 0 (by omega)
      have hw0 : writeOk i0 = true := by simpa using hw 0 (by omega)
      rw [streamGo_cons_write writeOk extSet c rest i0 st hst he0 hw0]
      have hrec := ih rest (i0 + 1) st hst
        (fun j hj => by
          have := hw (j + 1) (by omega)
          simpa [Nat.add_assoc, Nat.add_comm 1 j] using this)
        (fun j hj => by
          have := hext (j + 1) (by omega)
          simpa [Nat.add_assoc, Nat.add_comm 1 j] using this)
        (by
          have h1 : i0 + 1 + n = i0 + (n + 1) := by omega
          rw [h1]
          exact hextn)
        (by simpa using Nat.lt_of_succ_lt_succ (by simpa using hlen))
      rw [hrec]
      simp [List.range'_succ]

/-- Non-promo stream whose flag stays clear and whose write first fails at
chunk `i0 + n`: the first `n` chunks are forwarded once each, the stream
aborts with `writerFailed`, the subprocess is terminated, the failed chunk
is not retried, and the Python-level return value is `False`. -/
theorem streamGo_fail_at (writeOk extSet : Nat → Bool) :
    ∀ (n : Nat) (chunks : List Nat) (i0 : Nat) (st : SkipSt),
    st.skipStatus = false →
    (∀ j, j < n → writeOk (i0 + j) = true) →
    (∀ j, j ≤ n → extSet (i0 + j) = false) →
    writeOk (i0 + n) = false →
    n < chunks.length →
    streamGo false writeOk extSet chunks i0 st =
      ⟨.writerFailed, false, List.range' i0 n, true, st⟩ := by
  intro n
  induction n with
  | zero =>
    intro chunks i0 st hst _ hext hwf hlen
    cases chunks with
    | nil => simp at hlen
    | cons c rest =>
      have he0 : extSet i0 = false := by simpa using hext 0 (by omega)
      have hw0 : writeOk i0 = false := by simpa using hwf
      rw [streamGo_cons_fail writeOk extSet c rest i0 st hst he0 hw0]
      simp
  | succ n ih =>
    intro chunks i0 st hst hw hext hwf hlen
    cases chunks with
    | nil => simp at hlen
    | cons c rest =>
      have he0 : extSet i0 = false := by simpa using hext 0 (by omega)
      have hw0 : writeOk i0 = true := by simpa using hw 0 (by omega)
      rw [streamGo_cons_write writeOk extSet c rest i0 st hst he0 hw0]
      have hrec := ih rest (i0 + 1) st hst
        (fun j hj => by
          have := hw (j + 1) (by omega)
          simpa [Nat.add_assoc, Nat.add_comm 1 j] using this)
        (fun j hj => by
          have := hext (j + 1) (by omega)
          simpa [Nat.add_assoc, Nat.add_comm 1 j] using this)
        (by
          have h1 : i0 + 1 + n = i0 + (n + 1) := by omega
          rw [h1]
          exact hwf)
        (by simpa using Nat.lt_of_succ_lt_succ (by simpa using hlen))
      rw [hrec]
      simp [List.range'_succ]

/-- The flag state a promo stream leaves behind: every external set during
the file is absorbed, nothing is cleared. -/
def promoFinal (extSet : Nat → Bool) : Nat → Nat → SkipSt → SkipSt
  | 0, _, st => st
  | n + 1, i0, st =>
      promoFinal extSet n (i0 + 1) (if extSet i0 then setFlag st else st)

theorem streamGo_promo_all (writeOk extSet : Nat → Bool)
    (hw : ∀ j, writeOk j = true) :
    ∀ (chunks : List Nat) (i0 : Nat) (st : SkipSt),
    streamGo true writeOk extSet chunks i0 st =
      ⟨.finished, true, List.range' i0 chunks.length, true,
        promoFinal extSet chunks.length i0 st⟩ := by
  intro chunks
  induction chunks with
  | nil => intro i0 st; simp [streamGo, promoFinal]
  | cons c rest ih =>
    intro i0 st
    rw [streamGo_cons_promo writeOk extSet c rest i0 st (hw i0)]
    rw [ih (i0 + 1) (if extSet i0 then setFlag st else st)]
    simp [List.range'_succ, promoFinal]

theorem promoFinal_mono (extSet : Nat → Bool) :
    ∀ (n i0 : Nat) (st : SkipSt), st.skipStatus = true →
    (promoFinal extSet n i0 st).skipStatus = true := by
  intro n
  induction n with
  | zero => intro i0 st h; exact h
  | succ n ih =>
    intro i0 st h
    simp only [promoFinal]
    apply ih
    cases he : extSet i0 <;> simp [he, setFlag, h]

theorem promoFinal_set (extSet : Nat → Bool) :
    ∀ (n : Nat) (j i0 : Nat) (st : SkipSt), j < n → extSet (i0 + j) = true →
    (promoFinal extSet n i0 st).skipStatus = true := by
  intro n
  induction n with
  | zero => intro j i0 st hj; omega
  | succ n ih =>
    intro j i0 st hj he
    simp only [promoFinal]
    cases j with
    | zero =>
      apply promoFinal_mono
      simp only [show i0 + 0 = i0 from rfl] at he
      simp [he, setFlag]
    | succ j' =>
      apply ih j' (i0 + 1) _ (by omega)
      have h1 : i0 + 1 + j' = i0 + (j' + 1) := by omega
      rw [h1]
      exact he

theorem promoFinal_stop (extSet : Nat → Bool) :
    ∀ (n i0 : Nat) (st : SkipSt),
    (promoFinal extSet n i0 st).stopCounter = st.stopCounter := by
  intro n
  induction n with
  | zero => intro i0 st; rfl
  | succ n ih =>
    intro i0 st
    simp only [promoFinal]
    rw [ih]
    cases he : extSet i0 <;> simp [setFlag]

/-- C7 as stated is refuted by a promotional stream: with the skip flag
already set and two chunks, the promo runs to its natural end, both chunks
are forwarded, and the flag is neither cleared nor acted on — the skip
check is disabled by `and not is_promo`. -/
theorem C7_counterexample :
    (streamSingleFile true (fun _ => true) (fun _ => false) [0, 1]
      ⟨true, false⟩).outcome = .finished ∧
    (streamSingleFile true (fun _ => true) (fun _ => false) [0, 1]
      ⟨true, false⟩).forwarded = [0, 1] ∧
    (streamSingleFile true (fun _ => true) (fun _ => false) [0, 1]
      ⟨true, false⟩).finalSkip.skipStatus = true := by
  refine ⟨rfl, rfl, rfl⟩

/-- C7 (amended to non-promotional streams): the flag is consulted before
each chunk is forwarded; a flag that is set when consulted (initially, or
externally just before chunk `n`) ends the stream before its natural end
with exactly the chunks before that point forwarded once each, clears the
flag exactly once (`skip_status := False`, `stop_counter := True`), and a
double set is the same as a single set. -/
theorem C7_skip_clears_once (writeOk extSet : Nat → Bool) (chunks : List Nat)
    (st : SkipSt) (n : Nat) :
    (st.skipStatus = true → chunks ≠ [] →
      streamSingleFile false writeOk extSet chunks st =
        ⟨.skipped, true, [], true, ⟨false, true⟩⟩) ∧
    (st.skipStatus = false →
      (∀ j, j < n → writeOk j = true) →
      (∀ j, j < n → extSet j = false) →
      extSet n = true → n < chunks.length →
      streamSingleFile false writeOk extSet chunks st =
        ⟨.skipped, true, List.range' 0 n, true, ⟨false, true⟩⟩) ∧
    setFlag (setFlag st) = setFlag st ∧
    (∀ p : Bool, streamSingleFile p writeOk extSet chunks (setFlag (setFlag st)) =
      streamSingleFile p writeOk extSet chunks (setFlag st)) := by
  refine ⟨?_, ?_, rfl, fun p => rfl⟩
  · intro hst hne
    cases chunks with
    | nil => exact absurd rfl hne
    | cons c rest =>
      exact streamGo_cons_skip writeOk extSet c rest 0 st (Or.inr hst)
  · intro hst hw hext hen hlen
    exact streamGo_skip_at writeOk extSet n chunks 0 st hst
      (fun j hj => by simpa using hw j hj)
      (fun j hj => by simpa using hext j hj)
      (by simpa using hen) hlen

theorem C7_amended_witness :
    streamSingleFile false (fun _ => true) (fun j => decide (j = 1)) [0, 1, 2]
      ⟨false, false⟩ = ⟨.skipped, true, [0], true, ⟨false, true⟩⟩ ∧
    streamSingleFile false (fun _ => true) (fun _ => false) [0, 1, 2]
      ⟨true, false⟩ = ⟨.skipped, true, [], true, ⟨false, true⟩⟩ :=
  ⟨by
    have h := (C7_skip_clears_once (fun _ => true) (fun j => decide (j = 1))
      [0, 1, 2] ⟨false, false⟩ 1).2.1 rfl (fun j _ => rfl)
      (fun j hj => by interval_cases j; rfl) (by decide) (by decide)
    simpa using h,
   (C7_skip_clears_once (fun _ => true) (fun _ => false) [0, 1, 2]
      ⟨true, false⟩ 0).1 rfl (by decide)⟩

/-- C10: while a promo streams, the skip check is bypassed — a flag set
before or during the promo neither ends it early nor is cleared (all
chunks are forwarded and the flag is still set, `stop_counter` untouched) —
and the still-set flag then ends the next non-promo file at its first
chunk. -/
theorem C10_promo_bypass (writeOk extSet : Nat → Bool) (chunks : List Nat)
    (st : SkipSt) (i : Nat) :
    ((∀ j, writeOk j = true) → i < chunks.length → extSet i = true →
      streamSingleFile true writeOk extSet chunks st =
        ⟨.finished, true, List.range' 0 chunks.length, true,
          promoFinal extSet chunks.length 0 st⟩ ∧
      (promoFinal extSet chunks.length 0 st).skipStatus = true ∧
      (promoFinal extSet chunks.length 0 st).stopCounter = st.stopCounter) ∧
    (st.skipStatus = true → chunks ≠ [] →
      streamSingleFile false writeOk extSet chunks st =
        ⟨.skipped, true, [], true, ⟨false, true⟩⟩) := by
  constructor
  · intro hw hi he
    refine ⟨streamGo_promo_all writeOk extSet hw chunks 0 st, ?_, ?_⟩
    · exact promoFinal_set extSet chunks.length i 0 st hi (by simpa using he)
    · exact promoFinal_stop extSet chunks.length 0 st
  · intro hst hne
    cases chunks with
    | nil => exact absurd rfl hne
    | cons c rest =>
      exact streamGo_cons_skip writeOk extSet c rest 0 st (Or.inr hst)

theorem C10_witness :
    streamSingleFile true (fun _ => true) (fun j => decide (j = 1)) [0, 1, 2]
      ⟨false, false⟩ = ⟨.finished, true, [0, 1, 2], true, ⟨true, false⟩⟩ ∧
    streamSingleFile false (fun _ => true) (fun _ => false) [5, 6]
      ⟨true, false⟩ = ⟨.skipped, true, [], true, ⟨false, true⟩⟩ := by
  constructor
  · have h := (C10_promo_bypass (fun _ => true) (fun j => decide (j = 1))
      [0, 1, 2] ⟨false, false⟩ 1).1 (fun j => rfl) (by decide) (by decide)
    have h2 := h.1
    exact h2.trans (by decide)
  · exact (C10_promo_bypass (fun _ => true) (fun _ => false) [5, 6]
      ⟨true, false⟩ 0).2 rfl (by decide)

/- ## Stream Orchestrator (src/main.py, stream_audio_loop)

The per-cycle broadcast block (run before the loop and again after every
streamed file) performs, in source order: `add_to_history()`,
`move_to_now_playing()`, the empty next-coming broadcast, the now-playing
broadcast (when now-playing data exists), the Icecast metadata update
(with "Silence - Pew Hits" otherwise), the queue broadcast, and the
re-registration of the position ticker.  One loop iteration (with no promo
due) reconnects if the connection is down, re-registers the downloader
task, pops the playlist head (FIFO, before streaming), streams it, runs
the broadcast block, and marks the connection lost if the stream reported
a write failure. -/

/-- Observable events of the orchestrator, in emission order. -/
inductive Ev
  /-- `add_to_history()` -/
  | histAppend
  /-- `move_to_now_playing()` -/
  | promote
  /-- `broadcast_song("next_coming", ..., None)` -/
  | nextClearedBcast
  /-- `broadcast_song("now_playing", ...)` -/
  | nowPlayingBcast (title album : String)
  /-- `update_icecast_metadata(song)` -/
  | icecastMeta (song : String)
  /-- `broadcast_queue_update(...)` -/
  | queueBcast
  /-- `manage_task("update_position", ...)` -/
  | positionTask
  /-- `manage_task("song_downloader", ...)` -/
  | downloaderTask
  /-- `connect_to_icecast()` succeeded -/
  | reconnect
  /-- one `stream_single_file(file, ...)` call returning `ok` -/
  | streamed (file : String) (ok : Bool)
deriving DecidableEq, Repr

/-- `get_now_playing_data`: the single record (or a list's head). -/
def getNowPlaying (s : PState) : Option PRec := s.now.head?

/-- The broadcast block of `stream_audio_loop`, as state change plus the
events it emits in order. -/
def cycleBroadcast (s : PState) : PState × List Ev :=
  match getNowPlaying (pstep .moveToNowPlaying s) with
  | some np =>
      (pstep .moveToNowPlaying s, [.histAppend, .promote, .nextClearedBcast,
        .nowPlayingBcast np.title np.album,
        .icecastMeta (np.title ++ " - " ++ np.album), .queueBcast,
        .positionTask])
  | none =>
      (pstep .moveToNowPlaying s, [.histAppend, .promote, .nextClearedBcast,
        .icecastMeta "Silence - Pew Hits", .queueBcast, .positionTask])

/-- The mutable state one loop iteration works on. -/
structure LoopState where
  connected : Bool
  playlist : List String
  skip : SkipSt
  ps : PState
deriving DecidableEq, Repr

/-- Environment oracles for one loop iteration. -/
structure IterEnv where
  writeOk : Nat → Bool
  extSet : Nat → Bool
  chunksOf : String → List Nat
  silenceExists : Bool

/-- The body of one `stream_audio_loop` iteration once the connection is
up (no promo due): re-register the downloader task, pop the playlist head
(FIFO, before streaming; silence when the playlist is empty), stream it,
run the broadcast block, and mark the connection lost iff the stream
reported `False`. -/
def iterCore (s : LoopState) (env : IterEnv) : LoopState × List Ev :=
  match s.playlist with
  | f :: rest =>
      (⟨if (streamSingleFile false env.writeOk env.extSet (env.chunksOf f)
            s.skip).ok then s.connected else false,
        rest,
        (streamSingleFile false env.writeOk env.extSet (env.chunksOf f)
          s.skip).finalSkip,
        (cycleBroadcast s.ps).1⟩,
       [.downloaderTask, .streamed f (streamSingleFile false env.writeOk
          env.extSet (env.chunksOf f) s.skip).ok] ++ (cycleBroadcast s.ps).2)
  | [] =>
      if env.silenceExists then
        (⟨if (streamSingleFile false env.writeOk env.extSet
              (env.chunksOf "Nothing.mp3") s.skip).ok then s.connected
            else false,
          [],
          (streamSingleFile false env.writeOk env.extSet
            (env.chunksOf "Nothing.mp3") s.skip).finalSkip,
          (cycleBroadcast s.ps).1⟩,
         [.downloaderTask, .streamed "Nothing.mp3" (streamSingleFile false
            env.writeOk env.extSet (env.chunksOf "Nothing.mp3") s.skip).ok]
           ++ (cycleBroadcast s.ps).2)
      else (s, [.downloaderTask])

/-- One iteration of the `while True` loop of `stream_audio_loop`, with no
promo due: reconnect first when the connection is down. -/
def loopIteration (s : LoopState) (env : IterEnv) : LoopState × List Ev :=
  if s.connected then iterCore s env
  else
    ((iterCore { s with connected := true } env).1,
     .reconnect :: (iterCore { s with connected := true } env).2)

/-- C5: when the promotion produces now-playing data, the broadcast block
emits exactly history append → promotion → next-coming-cleared broadcast →
now-playing broadcast → relay metadata update → queue broadcast (→ position
ticker restart), and in every case a now-playing broadcast can only appear
after the next-coming-cleared broadcast. -/
theorem C5_cycle_order :
    (∀ (s : PState) (np : PRec),
      getNowPlaying (pstep .moveToNowPlaying s) = some np →
      (cycleBroadcast s).2 = [.histAppend, .promote, .nextClearedBcast,
        .nowPlayingBcast np.title np.album,
        .icecastMeta (np.title ++ " - " ++ np.album), .queueBcast,
        .positionTask]) ∧
    (∀ (s : PState) (i : Nat) (t a : String),
      ((cycleBroadcast s).2).getD i .histAppend = .nowPlayingBcast t a →
      ∃ j, j < i ∧ ((cycleBroadcast s).2).getD j .histAppend = .nextClearedBcast) := by
  constructor
  · intro s np h
    unfold cycleBroadcast
    rw [h]
  · intro s i t a h
    cases hnp : getNowPlaying (pstep .moveToNowPlaying s) with
    | some np =>
      have hevs : (cycleBroadcast s).2 = [.histAppend, .promote,
          .nextClearedBcast, .nowPlayingBcast np.title np.album,
          .icecastMeta (np.title ++ " - " ++ np.album), .queueBcast,
          .positionTask] := by
        unfold cycleBroadcast
        rw [hnp]
      rw [hevs] at h ⊢
      rcases Nat.lt_or_ge i 7 with hi | hi
      · interval_cases i
        · simp at h
        · simp at h
        · simp at h
        · exact ⟨2, by omega, by simp⟩
        · simp at h
        · simp at h
        · simp at h
      · rw [List.getD_eq_default _ _ (by simp; omega)] at h
        cases h
    | none =>
      have hevs : (cycleBroadcast s).2 = [.histAppend, .promote,
          .nextClearedBcast, .icecastMeta "Silence - Pew Hits", .queueBcast,
          .positionTask] := by
        unfold cycleBroadcast
        rw [hnp]
      rw [hevs] at h
      rcases Nat.lt_or_ge i 6 with hi | hi
      · interval_cases i
        · simp at h
        · simp at h
        · simp at h
        · simp at h
        · simp at h
        · simp at h
      · rw [List.getD_eq_default _ _ (by simp; omega)] at h
        cases h

/-- Concrete state for the C5 witness: a record sits in next-coming. -/
def psW : PState := ⟨[], [⟨"x", "Song", "Album", 180⟩]⟩

theorem C5_witness :
    (cycleBroadcast psW).2 = [.histAppend, .promote, .nextClearedBcast,
      .nowPlayingBcast "Song" "Album", .icecastMeta "Song - Album",
      .queueBcast, .positionTask] ∧
    ∃ j, j < 3 ∧ ((cycleBroadcast psW).2).getD j .histAppend = .nextClearedBcast :=
  ⟨by
    have h := C5_cycle_order.1 psW ⟨"x", "Song", "Album", 180⟩ rfl
    simpa using h,
   C5_cycle_order.2 psW 3 "Song" "Album" rfl⟩

/-- C6: a mid-file write failure (first failing write at chunk `n`, flag
clear) forwards exactly the chunks before it once each, terminates the
transcoding subprocess, returns the value `False` rather than raising; the
iteration still runs the full broadcast block in order after the stream,
marks the connection lost, and consumes the in-flight file; the next
iteration reconnects and streams the next scheduled file. -/
theorem C6_write_failure_reconnect (s : LoopState) (env : IterEnv)
    (f : String) (rest : List String) (n : Nat)
    (hconn : s.connected = true) (hpl : s.playlist = f :: rest)
    (hskip : s.skip.skipStatus = false)
    (hw : ∀ j, j < n → env.writeOk j = true)
    (hext : ∀ j, j ≤ n → env.extSet j = false)
    (hwf : env.writeOk n = false)
    (hlen : n < (env.chunksOf f).length) :
    streamSingleFile false env.writeOk env.extSet (env.chunksOf f) s.skip =
      ⟨.writerFailed, false, List.range' 0 n, true, s.skip⟩ ∧
    loopIteration s env =
      (⟨false, rest, s.skip, (cycleBroadcast s.ps).1⟩,
       [.downloaderTask, .streamed f false] ++ (cycleBroadcast s.ps).2) ∧
    (∀ (env2 : IterEnv) (g : String) (rest2 : List String),
      rest = g :: rest2 →
      (loopIteration (loopIteration s env).1 env2).2 =
        [.reconnect, .downloaderTask,
          .streamed g (streamSingleFile false env2.writeOk env2.extSet
            (env2.chunksOf g) s.skip).ok] ++
        (cycleBroadcast (cycleBroadcast s.ps).1).2) := by
  have hfail : streamSingleFile false env.writeOk env.extSet (env.chunksOf f)
      s.skip = ⟨.writerFailed, false, List.range' 0 n, true, s.skip⟩ :=
    streamGo_fail_at env.writeOk env.extSet n (env.chunksOf f) 0 s.skip hskip
      (fun j hj => by simpa using hw j hj)
      (fun j hj => by simpa using hext j hj)
      (by simpa using hwf) hlen
  have hiter : loopIteration s env =
      (⟨false, rest, s.skip, (cycleBroadcast s.ps).1⟩,
       [.downloaderTask, .streamed f false] ++ (cycleBroadcast s.ps).2) := by
    unfold loopIteration
    rw [if_pos hconn]
    unfold iterCore
    rw [hpl]
    simp only [hfail]
    rfl
  refine ⟨hfail, hiter, ?_⟩
  intro env2 g rest2 hrest
  rw [hiter]
  unfold loopIteration
  rw [if_neg (by simp)]
  unfold iterCore
  simp only [hrest]
  rfl

/-- Concrete witness data for the write-failure scenario: two files
queued, the write of chunk 1 of the first file fails. -/
def envW6 : IterEnv :=
  ⟨fun j => decide (j ≠ 1), fun _ => false, fun _ => [7, 8, 9], true⟩

/-- A second-iteration environment where every write succeeds. -/
def envW6b : IterEnv :=
  ⟨fun _ => true, fun _ => false, fun _ => [4, 5], true⟩

def lsW : LoopState :=
  ⟨true, ["a.mp3", "b.mp3"], ⟨false, false⟩, ⟨[], [⟨"x", "S", "A", 5⟩]⟩⟩

theorem C6_witness :
    streamSingleFile false envW6.writeOk envW6.extSet (envW6.chunksOf "a.mp3")
      lsW.skip = ⟨.writerFailed, false, List.range' 0 1, true, lsW.skip⟩ ∧
    loopIteration lsW envW6 =
      (⟨false, ["b.mp3"], lsW.skip, (cycleBroadcast lsW.ps).1⟩,
       [.downloaderTask, .streamed "a.mp3" false] ++ (cycleBroadcast lsW.ps).2) ∧
    (loopIteration (loopIteration lsW envW6).1 envW6b).2 =
      [.reconnect, .downloaderTask,
        .streamed "b.mp3" (streamSingleFile false envW6b.writeOk envW6b.extSet
          (envW6b.chunksOf "b.mp3") lsW.skip).ok] ++
      (cycleBroadcast (cycleBroadcast lsW.ps).1).2 := by
  have t := C6_write_failure_reconnect lsW envW6 "a.mp3" ["b.mp3"] 1 rfl rfl rfl
    (by intro j hj; interval_cases j; rfl)
    (by intro j hj; rfl)
    rfl (by decide)
  exact ⟨t.1, t.2.1, t.2.2 envW6b "b.mp3" [] rfl⟩

end Radio
